import Mathlib

/-!
# Verification of the anime-launcher-sdk component subsystem

Shallow embedding of the version index (`src/components/dxvk.rs`), the ZZMI
package sync engine and overlay manager (`src/games/zzz/zzmi.rs`), together
with proofs about the spec's claims on these operations.

Conventions of the embedding:
* Rust `String` is Lean `String`; filesystem paths are lists of path
  components (`List String`).
* `serde_json` field accesses such as `response["tag_name"].as_str()` are
  modelled as `Option String` fields (absent-or-wrong-type collapses to
  `none`, exactly the branch the Rust code takes).
* `anyhow::Result` is `Except` over an explicit error type whose
  constructors correspond one-to-one to the distinct `anyhow!` messages of
  the source.
* A Rust panic (out-of-bounds indexing) is a distinct outcome constructor,
  kept separate from `Err` results, since the source distinguishes the two.
* `HashMap<String, String>` is modelled as an association list
  `List (String × String)`; none of the verified operations depend on its
  lookup behaviour.
-/

namespace AnimeLauncherSdk

/-! ## Version index (`src/components/dxvk.rs`) -/

/-- `Features` from `dxvk.rs`: environment variable overrides.  The
`HashMap<String, String>` is modelled as an association list. -/
structure Features where
  env : List (String × String)
deriving Repr, DecidableEq

/-- `Version` from `dxvk.rs`: one installable release. -/
structure Version where
  name : String
  version : String
  uri : String
  features : Option Features
deriving Repr, DecidableEq

/-- `Group` from `dxvk.rs`: a named family of component releases. -/
structure Group where
  name : String
  title : String
  features : Features
  versions : List Version
deriving Repr, DecidableEq

/-- Outcome of a Rust function returning `anyhow::Result<T>` whose body can
additionally panic (out-of-bounds slice indexing).  `panicked` is a crash,
not an `Err` value. -/
inductive RustOutcome (ε : Type) (α : Type) where
  | panicked
  | err (e : ε)
  | ok (a : α)
deriving Repr, DecidableEq

/-- Error kinds named by the spec for the version index. -/
inductive IndexError where
  | indexEmpty
deriving Repr, DecidableEq

/-- `Version::latest` from `dxvk.rs`:
`Ok(get_groups(components)?[0].versions[0].clone())`.
The input is the parsed group list (the output of `get_groups`; the
`ComponentsLoader` itself is out of scope of the claims).  Rust's `[0]`
indexing panics on an empty vector, so an empty group list, or a first
group with no versions, is a panic — not an `Err`. -/
def Version.latest (groups : List Group) : RustOutcome IndexError Version :=
  match groups with
  | [] => .panicked
  | g :: _ =>
    match g.versions with
    | [] => .panicked
    | v :: _ => .ok v

/-- `Modelled from the spec:` the spec's contract for `latest`
("returns the first version of the first group; fails with `IndexEmpty` if
the index has no groups or the first group has no versions"), used to
compare against the source's `Version.latest`. -/
def latestSpec (groups : List Group) : RustOutcome IndexError Version :=
  match groups with
  | [] => .err .indexEmpty
  | g :: _ =>
    match g.versions with
    | [] => .err .indexEmpty
    | v :: _ => .ok v

/-- `Version::find_in` from `dxvk.rs`: iterate the groups in order; inside
each group, `find` the first version whose `name` or `version` equals the
query; return the first hit, else `None`. -/
def Version.find_in (groups : List Group) (name : String) : Option Version :=
  match groups with
  | [] => none
  | g :: rest =>
    match g.versions.find? (fun v => v.name == name || v.version == name) with
    | some v => some v
    | none => Version.find_in rest name

/-- Kind of filesystem entry at a path: nothing, a regular file, or a
directory.  `Path::exists()` in Rust is true for both files and
directories. -/
inductive FsEntry where
  | absent
  | file
  | dir
deriving Repr, DecidableEq

/-- `Version::is_downloaded_in` from `dxvk.rs`:
`folder.into().join(&self.name).exists()`.  The filesystem is abstracted as
a map from paths (component lists) to entry kinds; `exists()` is "entry is
not absent", regardless of its kind. -/
def Version.is_downloaded_in (fs : List String → FsEntry) (v : Version)
    (folder : List String) : Bool :=
  fs (folder ++ [v.name]) != .absent

/-! ## Package sync engine (`src/games/zzz/zzmi.rs`)

`ensure_xxmi_libs` and `ensure_zzmi_package` have the same structure, so
they are modelled by one definition parameterised by the asset name pattern
(`"XXMI-PACKAGE"` resp. `"ZZMI"`).  The install-directory state is the part
of the filesystem these functions touch. -/

/-- One asset of a GitHub release, as accessed by `fetch_github_release`:
`asset["name"].as_str()` and `asset["browser_download_url"].as_str()` are
`Option String`. -/
structure Asset where
  name : Option String
  browser_download_url : Option String
deriving Repr, DecidableEq

/-- A GitHub release JSON document, as accessed by `fetch_github_release`:
`response["tag_name"].as_str()` and `response["assets"].as_array()`. -/
structure Release where
  tag_name : Option String
  assets : Option (List Asset)
deriving Repr, DecidableEq

/-- The three distinct `anyhow!` errors that `fetch_github_release` can
produce: `"No tag_name in release"`, `"No assets in release"` and
`"No {} zip found in release"` (the latter is the spec's
`ReleaseNotFound`). -/
inductive FetchError where
  | noTagName
  | noAssets
  | releaseNotFound
deriving Repr, DecidableEq

/-- Rust `str::starts_with`, over the character list (kernel-computable,
unlike `String.startsWith`). -/
def strStartsWith (s p : String) : Bool := p.data.isPrefixOf s.data

/-- Rust `str::ends_with`, over the character list. -/
def strEndsWith (s p : String) : Bool := p.data.isSuffixOf s.data

/-- The asset-matching predicate from `fetch_github_release`:
`n.starts_with(asset_prefix) && n.ends_with(".zip")`, false when the asset
has no string `name`. -/
def assetMatches (pfx : String) (a : Asset) : Bool :=
  match a.name with
  | some n => strStartsWith n pfx && strEndsWith n ".zip"
  | none => false

/-- `fetch_github_release` from `zzmi.rs`: extract `tag_name`, then
`assets`, then find the first asset matching the name pattern and take its
`browser_download_url`; an absent url on the matched asset falls into the
same `ok_or_else` as no match at all. -/
def fetch_github_release (r : Release) (pfx : String) :
    Except FetchError (String × String) :=
  match r.tag_name with
  | none => .error .noTagName
  | some tag =>
    match r.assets with
    | none => .error .noAssets
    | some assets =>
      match assets.find? (assetMatches pfx) with
      | none => .error .releaseNotFound
      | some a =>
        match a.browser_download_url with
        | none => .error .releaseNotFound
        | some url => .ok (tag, url)

/-- The filesystem state a single package kind's sync cycle touches:
* `stamp` — the parsed contents of `<install_dir>/version.json`
  (`read_version`); `none` when the file is absent or unparsable.  The
  stamp file lives inside the install directory, so removing the install
  directory removes it too.
* `payload` — the extracted archive contents of the install directory,
  identified by the url the archive was downloaded from; `none` when the
  install directory is absent or empty.
* `cacheZip` — the cached archive in `<base>/cache`, identified by its
  download url. -/
structure FsState where
  stamp : Option String
  payload : Option String
  cacheZip : Option String
deriving Repr, DecidableEq

/-- The primitive filesystem operations performed by the stale branch of
`ensure_xxmi_libs` / `ensure_zzmi_package`, in source order. -/
inductive Op where
  | createCacheDir
  | downloadTo (url : String)
  | removeOldIfExists
  | extractZip (url : String)
  | saveVersion (v : String)
  | removeZip
deriving Repr, DecidableEq

/-- Effect of one primitive operation on the sync state.
* `removeOldIfExists` is `fs::remove_dir_all(&libs_dir)` guarded by
  `libs_dir.exists()`: afterwards neither payload nor stamp exists (the
  stamp file lives inside the removed directory).
* `extractZip` unpacks the cached archive into the install directory; the
  XXMI/ZZMI archives carry no `version.json`, so extraction does not
  create a stamp.
* `saveVersion` is `save_version`: write the stamp file. -/
def applyOp (fs : FsState) : Op → FsState
  | .createCacheDir => fs
  | .downloadTo url => { fs with cacheZip := some url }
  | .removeOldIfExists => { fs with stamp := none, payload := none }
  | .extractZip _ => { fs with payload := fs.cacheZip }
  | .saveVersion v => { fs with stamp := some v }
  | .removeZip => { fs with cacheZip := none }

/-- Run a sequence of operations (all succeeding). -/
def runOps (fs : FsState) : List Op → FsState
  | [] => fs
  | op :: rest => runOps (applyOp fs op) rest

/-- Run a sequence of operations where `fail` says which operation raises
an I/O error; execution stops at the first failing operation (`?` in the
source propagates it), returning the state reached and whether the whole
sequence completed. -/
def runOpsExc (fail : Op → Bool) (fs : FsState) : List Op → FsState × Bool
  | [] => (fs, true)
  | op :: rest =>
    if fail op then (fs, false)
    else runOpsExc fail (applyOp fs op) rest

/-- The operations of the stale branch of `ensure_xxmi_libs`
(lines 223–242 of `zzmi.rs`), in source order: create the cache dir,
download the asset, remove the old install dir if present, extract the
archive into the install dir, write the version stamp, delete the cached
archive. -/
def staleOps (url tag : String) : List Op :=
  [.createCacheDir, .downloadTo url, .removeOldIfExists,
   .extractZip url, .saveVersion tag, .removeZip]

/-- `ensure_xxmi_libs` / `ensure_zzmi_package` from `zzmi.rs`,
parameterised by the asset name pattern: read the local stamp
(`read_version`), fetch the remote release descriptor, and if the stamp
differs from the remote tag run the download–remove–extract–stamp–cleanup
sequence.  Returns the result, the final filesystem state, and the list of
filesystem operations performed. -/
def ensurePackage (pfx : String) (fs : FsState) (r : Release) :
    Except FetchError String × FsState × List Op :=
  match fetch_github_release r pfx with
  | .error e => (.error e, fs, [])
  | .ok (latest, url) =>
    if fs.stamp = some latest then
      (.ok latest, fs, [])
    else
      (.ok latest, runOps fs (staleOps url latest), staleOps url latest)

/-- `ensure_xxmi_libs` from `zzmi.rs`: asset name pattern
`"XXMI-PACKAGE"`. -/
def ensure_xxmi_libs (fs : FsState) (r : Release) :
    Except FetchError String × FsState × List Op :=
  ensurePackage "XXMI-PACKAGE" fs r

/-- `ensure_zzmi_package` from `zzmi.rs`: asset name pattern `"ZZMI"`. -/
def ensure_zzmi_package (fs : FsState) (r : Release) :
    Except FetchError String × FsState × List Op :=
  ensurePackage "ZZMI" fs r

/-! ## Recursive artifact search (`find_file_recursive` in `zzmi.rs`)

Source directory trees (the extracted packages) are finite rose trees;
`read_dir` enumerates the children in list order. -/

/-- A filesystem tree node: a plain file or a directory with its entries. -/
inductive FTree where
  | file (name : String)
  | dir (name : String) (children : List FTree)

/-- Name of a tree node. -/
def FTree.nodeName : FTree → String
  | .file n => n
  | .dir n _ => n

/-- `dir.join(filename).exists()`: some entry (file or directory) with that
name is among the children. -/
def hasEntry (children : List FTree) (filename : String) : Bool :=
  children.any (fun c => c.nodeName == filename)

mutual

/-- `find_file_recursive` from `zzmi.rs` on a tree: `None` when the node is
not a directory; otherwise return the direct child path when
`dir.join(filename).exists()`, else recurse into the subdirectories in
order.  The result is the found path relative to the searched node. -/
def find_file_recursive (filename : String) : FTree → Option (List String)
  | .file _ => none
  | .dir _ children =>
    if hasEntry children filename then some [filename]
    else findInChildren filename children

/-- The `for entry in entries.flatten()` loop of `find_file_recursive`:
recurse into each child that is a directory, returning the first hit. -/
def findInChildren (filename : String) : List FTree → Option (List String)
  | [] => none
  | c :: rest =>
    match c with
    | .file _ => findInChildren filename rest
    | .dir n ch =>
      match find_file_recursive filename (.dir n ch) with
      | some p => some (n :: p)
      | none => findInChildren filename rest

end

/-! ## Overlay manager (`prepare_mods` / `cleanup_mods` in `zzmi.rs`)

The game directory is modelled as a map from entry name to what occupies
it.  Only the fixed artifact and folder names are ever touched. -/

/-- What occupies a name in the game directory. -/
inductive GEntry where
  | absent
  | file
  | realDir
  | symlink
deriving Repr, DecidableEq

/-- Game directory state: entry kind per name. -/
def GameDir := String → GEntry

/-- Set the entry at a name. -/
def setEntry (d : GameDir) (n : String) (k : GEntry) : GameDir :=
  fun m => if m = n then k else d m

/-- The artifact filenames `cleanup_mods` removes, in source order. -/
def cleanupFiles : List String :=
  ["dxgi.dll", "d3dcompiler_47.dll", "nvapi64.dll", "d3dx.ini", "d3d11.dll"]

/-- The reserved folder names `cleanup_mods` removes only as symlinks, in
source order. -/
def cleanupFolders : List String := ["Core", "ShaderFixes", "Mods"]

/-- One entry-removal step of `cleanup_mods`. -/
inductive CleanupOp where
  | rmFile (n : String)
  | rmIfSymlink (n : String)
deriving Repr, DecidableEq

/-- The removal sequence of `cleanup_mods`, in source order: the artifact
file loop then the reserved folder loop. -/
def cleanupOps : List CleanupOp :=
  cleanupFiles.map .rmFile ++ cleanupFolders.map .rmIfSymlink

/-- Effect of one `cleanup_mods` step, where `fail` says whether
`fs::remove_file` on that name raises an I/O error.
* `rmFile n` is `if path.exists() { fs::remove_file(&path)?; }`:
  skipped when absent; `remove_file` on a real directory always fails
  (EISDIR) and otherwise fails when the oracle says so.
* `rmIfSymlink n` is `if path.is_symlink() { fs::remove_file(&path)?; }`:
  only a symlink is touched. -/
def cleanupStep (fail : String → Bool) (d : GameDir) :
    CleanupOp → Except String GameDir
  | .rmFile n =>
    if d n = .absent then .ok d
    else if d n = .realDir || fail n then .error n
    else .ok (setEntry d n .absent)
  | .rmIfSymlink n =>
    if d n = .symlink then
      if fail n then .error n else .ok (setEntry d n .absent)
    else .ok d

/-- Run `cleanup_mods` steps: the `?` operator in the source propagates the
first failure immediately, so execution stops there.  Returns the first
failing name (if any) and the directory state reached. -/
def runCleanup (fail : String → Bool) (d : GameDir) :
    List CleanupOp → Option String × GameDir
  | [] => (none, d)
  | op :: rest =>
    match cleanupStep fail d op with
    | .error e => (some e, d)
    | .ok d2 => runCleanup fail d2 rest

/-- `cleanup_mods` from `zzmi.rs` (lines 407–427): remove the five artifact
files that exist, then remove each reserved folder only if it is a
symlink; each removal uses `?`, so the first I/O error aborts the rest. -/
def cleanup_mods (fail : String → Bool) (d : GameDir) :
    Option String × GameDir :=
  runCleanup fail d cleanupOps

/-- Follow a relative path down a tree (used to model
`d3dx_ini.parent()`: the subtree at the found path minus its last
component). -/
def subtreeAt : FTree → List String → Option FTree
  | t, [] => some t
  | .file _, _ :: _ => none
  | .dir _ children, n :: rest =>
    match children.find? (fun c => c.nodeName == n) with
    | some c => subtreeAt c rest
    | none => none

/-- `zzmi_config_dir.join(folder).is_dir()`: the node has a directory child
with that name. -/
def hasDirChild (t : FTree) (n : String) : Bool :=
  match t with
  | .file _ => false
  | .dir _ children =>
    children.any (fun c =>
      match c with
      | .dir m _ => m == n
      | .file _ => false)

/-- Short-circuit sequencing of `prepare_mods` steps: the `?` operator
propagates the first error together with the state reached so far. -/
def andThenStep (r : Option String × GameDir)
    (f : GameDir → Option String × GameDir) : Option String × GameDir :=
  match r with
  | (some e, d) => (some e, d)
  | (none, d) => f d

/-- `fs::copy(src, game_dir.join(n))`: overwrites an existing file, fails
when a directory occupies the destination name. -/
def stepCopy (n : String) (d : GameDir) : Option String × GameDir :=
  if d n = .realDir then (some n, d) else (none, setEntry d n .file)

/-- An optional artifact copy (`if let Some(src) = find_file_recursive ...`):
copied when found, silently skipped otherwise. -/
def stepCopyOpt (found : Bool) (n : String) (d : GameDir) :
    Option String × GameDir :=
  if found then stepCopy n d else (none, d)

/-- The removal block before a symlink in `prepare_mods`:
`if dst.exists() || dst.is_symlink()`, a symlink is removed with
`remove_file`, a real directory with `remove_dir_all`; a plain file enters
the block but matches neither branch and is left in place. -/
def removeForLink (d : GameDir) (n : String) : GameDir :=
  match d n with
  | .symlink => setEntry d n .absent
  | .realDir => setEntry d n .absent
  | _ => d

/-- `std::os::unix::fs::symlink(src, dst)`: creates the link, fails with
EEXIST when something still occupies the destination name. -/
def stepLink (n : String) (d : GameDir) : Option String × GameDir :=
  if d n = .absent then (none, setEntry d n .symlink) else (some n, d)

/-- One iteration of the `for folder in &["Core", "ShaderFixes"]` loop:
remove what occupies the destination (symlink or real directory), then
link the source folder if the package provides it. -/
def stepLinkFolder (srcHasDir : Bool) (n : String) (d : GameDir) :
    Option String × GameDir :=
  let d2 := removeForLink d n
  if srcHasDir then stepLink n d2 else (none, d2)

/-- `prepare_mods` from `zzmi.rs` (lines 306–403), restricted to its effect
on the game directory.  `ensure_all()` runs first but touches only the
launcher's own directories, never `game_dir`; its outputs are the already
extracted `libs` and `zzmi` trees taken as parameters.  Then, in source
order: require `d3d11.dll` somewhere under the libs tree (bail otherwise),
copy it to `dxgi.dll`; optionally copy `d3dcompiler_47.dll` and
`nvapi64.dll`; require `d3dx.ini` under the zzmi tree; copy it; symlink
`Core` and `ShaderFixes` from the directory containing `d3dx.ini`; symlink
`Mods` (creating the user mods folder, outside the game directory, if
absent).  Returns the first error (if any) and the game-directory state
reached. -/
def prepare_mods (libs zzmi : FTree) (game : GameDir) :
    Option String × GameDir :=
  match find_file_recursive "d3d11.dll" libs with
  | none => (some "d3d11.dll not found in XXMI libs package", game)
  | some _ =>
    andThenStep (stepCopy "dxgi.dll" game) (fun d =>
    andThenStep
      (stepCopyOpt (find_file_recursive "d3dcompiler_47.dll" libs).isSome
        "d3dcompiler_47.dll" d) (fun d =>
    andThenStep
      (stepCopyOpt (find_file_recursive "nvapi64.dll" libs).isSome
        "nvapi64.dll" d) (fun d =>
    match find_file_recursive "d3dx.ini" zzmi with
    | none => (some "d3dx.ini not found in ZZMI package", d)
    | some p =>
      let cfg := subtreeAt zzmi p.dropLast
      let hasCore := match cfg with
        | some t => hasDirChild t "Core"
        | none => false
      let hasShaderFixes := match cfg with
        | some t => hasDirChild t "ShaderFixes"
        | none => false
      andThenStep (stepCopy "d3dx.ini" d) (fun d =>
      andThenStep (stepLinkFolder hasCore "Core" d) (fun d =>
      andThenStep (stepLinkFolder hasShaderFixes "ShaderFixes" d) (fun d =>
      stepLink "Mods" (removeForLink d "Mods")))))))

/-! ## Concrete fixtures used by scenario conjuncts and witnesses -/

/-- The vanilla entry of the spec's scenario manifest. -/
def vanillaVersion : Version :=
  { name := "vanilla", version := "2.3", uri := "https://x/a.tar",
    features := none }

/-- The spec's scenario manifest:
`[{name:"dxvk", versions:[{vanilla,2.3},{gplasync,2.3.1}]}]`. -/
def scenarioManifest : List Group :=
  [{ name := "dxvk", title := "DXVK", features := { env := [] },
     versions :=
       [vanillaVersion,
        { name := "gplasync", version := "2.3.1", uri := "https://x/b.tar",
          features := none }] }]

/-! ## Theorems -/

/-- C2, counterexample: on an empty components index `Version::latest`
panics (out-of-bounds `[0]` indexing), which is a crash, not the
`IndexEmpty` error result the spec's contract (`latestSpec`) prescribes. -/
theorem latest_empty_index_panics_cex :
    Version.latest [] = .panicked ∧
    latestSpec [] = .err .indexEmpty ∧
    Version.latest ([] : List Group) ≠ latestSpec [] := by
  refine ⟨rfl, rfl, ?_⟩
  simp [Version.latest, latestSpec]

/-- C2, amended: `Version::latest` panics when the index has no groups or
the first group has no versions; it never produces an `Err` (in
particular never `IndexEmpty`); with at least one group whose first group
has at least one version it returns that first group's first version
unchanged. -/
theorem latest_characterisation :
    Version.latest ([] : List Group) = .panicked ∧
    (∀ (g : Group) (rest : List Group), g.versions = [] →
      Version.latest (g :: rest) = .panicked) ∧
    (∀ (g : Group) (rest : List Group) (v : Version) (vs : List Version),
      g.versions = v :: vs → Version.latest (g :: rest) = .ok v) ∧
    (∀ (groups : List Group) (e : IndexError),
      Version.latest groups ≠ .err e) := by
  refine ⟨rfl, ?_, ?_, ?_⟩
  · intro g rest h
    simp [Version.latest, h]
  · intro g rest v vs h
    simp [Version.latest, h]
  · intro groups e
    match groups with
    | [] => simp [Version.latest]
    | g :: rest =>
      cases h : g.versions with
      | nil => simp [Version.latest, h]
      | cons v vs => simp [Version.latest, h]

/-- C2, witness for the amended claim at the scenario manifest. -/
theorem latest_characterisation_witness :
    Version.latest scenarioManifest = .ok vanillaVersion :=
  latest_characterisation.2.2.1
    { name := "dxvk", title := "DXVK", features := { env := [] },
      versions :=
        [vanillaVersion,
         { name := "gplasync", version := "2.3.1", uri := "https://x/b.tar",
           features := none }] }
    [] vanillaVersion _ rfl

/-- C7: `Version::find_in` returns the first version, taken across all
groups in index order, whose name or version tag equals the query
(case-sensitively: `String` equality), and `none` when no version matches;
on the spec's scenario manifest, `find_in "vanilla"` and `find_in "2.3"`
both return the vanilla entry and `find_in "missing"` returns nothing. -/
theorem find_in_first_match_across_groups :
    (∀ (groups : List Group) (n : String),
      Version.find_in groups n
        = (groups.flatMap (fun g => g.versions)).find?
            (fun v => v.name == n || v.version == n)) ∧
    Version.find_in scenarioManifest "vanilla" = some vanillaVersion ∧
    Version.find_in scenarioManifest "2.3" = some vanillaVersion ∧
    Version.find_in scenarioManifest "missing" = none := by
  refine ⟨?_, rfl, rfl, rfl⟩
  intro groups n
  induction groups with
  | nil => rfl
  | cons g rest ih =>
    simp only [Version.find_in, List.flatMap_cons, List.find?_append, ih]
    cases g.versions.find? (fun v => v.name == n || v.version == n) <;> rfl

/-- C9, counterexample: a plain file (not a subdirectory) named after the
version under the install root already makes `Version::is_downloaded_in`
return `true`, because the source tests `Path::exists()`, not
`Path::is_dir()`. -/
theorem is_downloaded_in_file_entry_cex :
    Version.is_downloaded_in
      (fun p => if p = ["install", "vanilla"] then .file else .absent)
      vanillaVersion ["install"] = true ∧
    (fun p =>
        if p = ["install", "vanilla"] then FsEntry.file else FsEntry.absent)
      (["install"] ++ [vanillaVersion.name]) ≠ .dir := by
  constructor
  · rfl
  · simp [vanillaVersion]

/-- C9, amended: `is_downloaded_in` returns `true` iff an entry of any
kind — file or directory — named after the version exists under the
install root; a subdirectory there suffices; and the result depends only
on the entry at that single path, so no content of the subdirectory is
examined. -/
theorem is_downloaded_in_entry_presence :
    (∀ (fs : List String → FsEntry) (v : Version) (folder : List String),
      Version.is_downloaded_in fs v folder = true ↔
        fs (folder ++ [v.name]) ≠ .absent) ∧
    (∀ (fs : List String → FsEntry) (v : Version) (folder : List String),
      fs (folder ++ [v.name]) = .dir →
        Version.is_downloaded_in fs v folder = true) ∧
    (∀ (fs₁ fs₂ : List String → FsEntry) (v : Version) (folder : List String),
      fs₁ (folder ++ [v.name]) = fs₂ (folder ++ [v.name]) →
        Version.is_downloaded_in fs₁ v folder
          = Version.is_downloaded_in fs₂ v folder) := by
  refine ⟨?_, ?_, ?_⟩
  · intro fs v folder
    simp [Version.is_downloaded_in, bne]
  · intro fs v folder h
    simp [Version.is_downloaded_in, h, bne]
  · intro fs₁ fs₂ v folder h
    simp [Version.is_downloaded_in, h]

/-- C9, witness for the amended claim: a directory entry under the install
root makes `is_downloaded_in` true. -/
theorem is_downloaded_in_entry_presence_witness :
    Version.is_downloaded_in
      (fun p => if p = ["install", "vanilla"] then .dir else .absent)
      vanillaVersion ["install"] = true :=
  is_downloaded_in_entry_presence.2.1
    (fun p => if p = ["install", "vanilla"] then .dir else .absent)
    vanillaVersion ["install"] (by simp [vanillaVersion])

/-- C10: `find_file_recursive` returns `None` whenever the searched node is
not a directory; and whenever an entry named `filename` exists directly in
the searched directory, it returns exactly that direct path (`[filename]`),
regardless of the subdirectories — so a match in the root directory always
takes precedence over any same-named file in a subdirectory. -/
theorem find_file_recursive_root_precedence :
    (∀ (n filename : String),
      find_file_recursive filename (.file n) = none) ∧
    (∀ (dname filename : String) (children : List FTree),
      FTree.file filename ∈ children →
        find_file_recursive filename (.dir dname children)
          = some [filename]) := by
  constructor
  · intro n filename
    rfl
  · intro dname filename children h
    have hentry : hasEntry children filename = true := by
      simp only [hasEntry, List.any_eq_true]
      exact ⟨.file filename, h, by simp [FTree.nodeName]⟩
    simp [find_file_recursive, hentry]

/-- C10, witness: the direct `d3d11.dll` wins over the one in the
subdirectory. -/
theorem find_file_recursive_root_precedence_witness :
    find_file_recursive "d3d11.dll"
      (.dir "libs"
        [.file "d3d11.dll", .dir "nested" [.file "d3d11.dll"]])
      = some ["d3d11.dll"] :=
  find_file_recursive_root_precedence.2 "libs" "d3d11.dll"
    [.file "d3d11.dll", .dir "nested" [.file "d3d11.dll"]]
    (List.mem_cons_self _ _)

/-! ### Cleanup and overlay theorems -/

/-- Helper: `runCleanup` on a failure freezes the state at the first
failing step; the steps after it are never applied. -/
theorem runCleanup_error_split (fail : String → Bool) (e : String) :
    ∀ (ops : List CleanupOp) (d : GameDir),
      (runCleanup fail d ops).1 = some e →
      ∃ pre op post, ops = pre ++ op :: post ∧
        (runCleanup fail d pre).1 = none ∧
        cleanupStep fail (runCleanup fail d pre).2 op = .error e ∧
        (runCleanup fail d ops).2 = (runCleanup fail d pre).2 := by
  intro ops
  induction ops with
  | nil => intro d h; simp [runCleanup] at h
  | cons op rest ih =>
    intro d h
    cases hstep : cleanupStep fail d op with
    | error e' =>
      have he : e' = e := by
        simp [runCleanup, hstep] at h
        exact h
      subst he
      exact ⟨[], op, rest, rfl, rfl, hstep, by simp [runCleanup, hstep]⟩
    | ok d2 =>
      have hrun : runCleanup fail d (op :: rest) = runCleanup fail d2 rest := by
        simp [runCleanup, hstep]
      rw [hrun] at h
      obtain ⟨pre, op', post, hsplit, hpre, herr, hfin⟩ := ih d2 h
      refine ⟨op :: pre, op', post, by simp [hsplit], ?_, ?_, ?_⟩
      · simpa [runCleanup, hstep] using hpre
      · simpa [runCleanup, hstep] using herr
      · rw [hrun, hfin]
        simp [runCleanup, hstep]

/-- The failure oracle of the C3 counterexample: removing `dxgi.dll`
raises an I/O error. -/
def cexFail : String → Bool := fun n => n == "dxgi.dll"

/-- The game directory of the C3 counterexample: both `dxgi.dll` and
`d3dx.ini` are present plain files. -/
def cexDir : GameDir := fun n =>
  if n = "dxgi.dll" then .file
  else if n = "d3dx.ini" then .file
  else .absent

/-- C3, counterexample: with `dxgi.dll` present but failing to remove and
`d3dx.ini` present and removable, `cleanup_mods` reports only the single
`dxgi.dll` failure and leaves `d3dx.ini` in place — the remaining entries
were never attempted, so failures are neither all attempted nor collected
together. -/
theorem cleanup_mods_not_aggregating_cex :
    (cleanup_mods cexFail cexDir).1 = some "dxgi.dll" ∧
    cexDir "d3dx.ini" = .file ∧
    (cleanup_mods cexFail cexDir).2 "d3dx.ini" = .file := by
  refine ⟨rfl, rfl, rfl⟩

/-- C3, amended: `cleanup_mods` is not best-effort: each removal uses
early-return error propagation (`?`), so whenever it reports a failure, it
reports exactly the first failing entry, every entry before it was
attempted without failing, and the directory state is frozen at the
failing entry — the entries after it are never attempted. -/
theorem cleanup_mods_short_circuits (fail : String → Bool) (d : GameDir)
    (e : String) (h : (cleanup_mods fail d).1 = some e) :
    ∃ pre op post, cleanupOps = pre ++ op :: post ∧
      (runCleanup fail d pre).1 = none ∧
      cleanupStep fail (runCleanup fail d pre).2 op = .error e ∧
      (cleanup_mods fail d).2 = (runCleanup fail d pre).2 :=
  runCleanup_error_split fail e cleanupOps d h

/-- C3, witness: the short-circuit characterisation at the counterexample
input. -/
theorem cleanup_mods_short_circuits_witness :
    ∃ pre op post, cleanupOps = pre ++ op :: post ∧
      (runCleanup cexFail cexDir pre).1 = none ∧
      cleanupStep cexFail (runCleanup cexFail cexDir pre).2 op
        = .error "dxgi.dll" ∧
      (cleanup_mods cexFail cexDir).2 = (runCleanup cexFail cexDir pre).2 :=
  cleanup_mods_short_circuits cexFail cexDir "dxgi.dll" rfl

/-- Helper: a run of cleanup steps leaves a name untouched when no
`rmFile` step targets it and it does not hold a symlink. -/
theorem runCleanup_preserves (fail : String → Bool) (n : String) :
    ∀ (ops : List CleanupOp) (d : GameDir),
      (∀ m, CleanupOp.rmFile m ∈ ops → m ≠ n) →
      d n ≠ .symlink →
      (runCleanup fail d ops).2 n = d n := by
  intro ops
  induction ops with
  | nil => intro d _ _; rfl
  | cons op rest ih =>
    intro d hfile hd
    have hfile' : ∀ m, CleanupOp.rmFile m ∈ rest → m ≠ n := by
      intro m hm
      exact hfile m (List.mem_cons_of_mem _ hm)
    cases op with
    | rmFile m =>
      have hm : m ≠ n := hfile m (List.mem_cons_self _ _)
      by_cases h1 : d m = .absent
      · simp only [runCleanup, cleanupStep, if_pos h1]
        exact ih d hfile' hd
      · by_cases h2 : d m = .realDir || fail m
        · simp [runCleanup, cleanupStep, h1, h2]
        · simp only [runCleanup, cleanupStep, if_neg h1, if_neg h2]
          have hset : setEntry d m .absent n = d n := by
            simp [setEntry, Ne.symm hm]
          rw [ih (setEntry d m .absent) hfile' (by rw [hset]; exact hd), hset]
    | rmIfSymlink m =>
      by_cases h1 : d m = .symlink
      · have hm : m ≠ n := by
          intro heq
          exact hd (heq ▸ h1)
        by_cases h2 : fail m
        · simp [runCleanup, cleanupStep, h1, h2]
        · simp only [runCleanup, cleanupStep, if_pos h1, if_neg h2]
          have hset : setEntry d m .absent n = d n := by
            simp [setEntry, Ne.symm hm]
          rw [ih (setEntry d m .absent) hfile' (by rw [hset]; exact hd), hset]
      · simp only [runCleanup, cleanupStep, if_neg h1]
        exact ih d hfile' hd

/-- C4: for every reserved folder name (`Core`, `ShaderFixes`, `Mods`),
`cleanup_mods` leaves the entry untouched unless it is currently a
symlink; in particular a real directory occupying a reserved folder name
is never deleted. -/
theorem cleanup_mods_spares_real_dirs (fail : String → Bool) (d : GameDir)
    (n : String) (hmem : n ∈ cleanupFolders) (hd : d n ≠ .symlink) :
    (cleanup_mods fail d).2 n = d n := by
  apply runCleanup_preserves fail n cleanupOps d _ hd
  intro m hm heq
  subst heq
  simp only [cleanupFolders, List.mem_cons, List.not_mem_nil, or_false] at hmem
  rcases hmem with h | h | h <;> subst h <;> revert hm <;> decide

/-- C4, witness: a real directory at `Core` survives `cleanup_mods`. -/
theorem cleanup_mods_spares_real_dirs_witness :
    (cleanup_mods (fun _ => false)
        (fun m => if m = "Core" then GEntry.realDir else .absent)).2 "Core"
      = (fun m => if m = "Core" then GEntry.realDir else .absent) "Core" :=
  cleanup_mods_spares_real_dirs (fun _ => false)
    (fun m => if m = "Core" then GEntry.realDir else .absent) "Core"
    (by decide) (by decide)

/-- C8: when `d3d11.dll` is nowhere under the libs source tree,
`prepare_mods` fails with the required-artifact-missing error before
touching the destination: the game directory state it returns is exactly
the input state — no file copied in, no symlink created. -/
theorem prepare_mods_aborts_without_required (libs zzmi : FTree)
    (game : GameDir) (h : find_file_recursive "d3d11.dll" libs = none) :
    prepare_mods libs zzmi game
      = (some "d3d11.dll not found in XXMI libs package", game) ∧
    ∀ n, (prepare_mods libs zzmi game).2 n = game n := by
  constructor
  · simp [prepare_mods, h]
  · intro n
    simp [prepare_mods, h]

/-- C8, witness: a libs tree holding only `other.dll` lacks the required
artifact, so `prepare_mods` aborts with the game directory untouched. -/
theorem prepare_mods_aborts_without_required_witness :
    prepare_mods (.dir "libs" [.file "other.dll"]) (.dir "zzmi" [])
        (fun _ => .absent)
      = (some "d3d11.dll not found in XXMI libs package",
         fun _ => .absent) ∧
    ∀ n, (prepare_mods (.dir "libs" [.file "other.dll"]) (.dir "zzmi" [])
        (fun _ => .absent)).2 n = (fun _ => GEntry.absent) n :=
  prepare_mods_aborts_without_required (.dir "libs" [.file "other.dll"])
    (.dir "zzmi" []) (fun _ => .absent) (by decide)

/-! ### Sync engine theorems -/

/-- C5, counterexample: a release lacking `tag_name` makes
`fetch_github_release` fail with the distinct `"No tag_name in release"`
error, not with `ReleaseNotFound` (`"No {} zip found in release"`) as the
claim states. -/
theorem fetch_missing_tag_not_release_not_found_cex :
    fetch_github_release { tag_name := none, assets := some [] }
        "XXMI-PACKAGE" = .error .noTagName ∧
    FetchError.noTagName ≠ FetchError.releaseNotFound := by
  exact ⟨rfl, by decide⟩

/-- C5, amended: when the release feed yields no asset matching the
configured pattern, the sync fails with `ReleaseNotFound`; a missing
`tag_name` or `assets` field fails with its own distinct error instead;
and in every fetch-failure case the sync aborts before any filesystem
mutation — stamp, install directory and cache are unchanged and no
filesystem operation is performed. -/
theorem fetch_failure_aborts_before_mutation :
    (∀ (r : Release) (pfx : String), r.tag_name = none →
      fetch_github_release r pfx = .error .noTagName) ∧
    (∀ (r : Release) (pfx t : String), r.tag_name = some t →
      r.assets = none → fetch_github_release r pfx = .error .noAssets) ∧
    (∀ (pfx t : String) (assets : List Asset),
      assets.find? (assetMatches pfx) = none →
      fetch_github_release { tag_name := some t, assets := some assets } pfx
        = .error .releaseNotFound) ∧
    (∀ (pfx : String) (fs : FsState) (r : Release) (e : FetchError),
      fetch_github_release r pfx = .error e →
      ensurePackage pfx fs r = (.error e, fs, [])) := by
  refine ⟨?_, ?_, ?_, ?_⟩
  · intro r pfx h
    simp [fetch_github_release, h]
  · intro r pfx t h1 h2
    simp [fetch_github_release, h1, h2]
  · intro pfx t assets h
    simp [fetch_github_release, h]
  · intro pfx fs r e h
    simp [ensurePackage, h]

/-- C5, witness at the spec's scenario: tag `v1.2`, no matching asset —
`ReleaseNotFound`, and the sync state (stamp included) is returned
untouched. -/
theorem fetch_failure_aborts_before_mutation_witness :
    ensurePackage "XXMI-PACKAGE"
        { stamp := some "v1", payload := some "u", cacheZip := none }
        { tag_name := some "v1.2", assets := some [] }
      = (.error .releaseNotFound,
         { stamp := some "v1", payload := some "u", cacheZip := none },
         []) :=
  fetch_failure_aborts_before_mutation.2.2.2 "XXMI-PACKAGE"
    { stamp := some "v1", payload := some "u", cacheZip := none }
    { tag_name := some "v1.2", assets := some [] } .releaseNotFound rfl

/-- C6: when the local stamp equals the remote tag the sync is a no-op —
it returns success with the filesystem state unchanged and performs no
filesystem operation (in particular no download); consequently a second
call right after any successful call is such a no-op, leaving the install
directory identical. -/
theorem ensure_current_is_noop (fs : FsState) (r : Release)
    (tag url : String)
    (h : fetch_github_release r "XXMI-PACKAGE" = .ok (tag, url)) :
    (fs.stamp = some tag → ensure_xxmi_libs fs r = (.ok tag, fs, [])) ∧
    ensure_xxmi_libs (ensure_xxmi_libs fs r).2.1 r
      = (.ok tag, (ensure_xxmi_libs fs r).2.1, []) := by
  constructor
  · intro hs
    simp [ensure_xxmi_libs, ensurePackage, h, hs]
  · by_cases hs : fs.stamp = some tag
    · simp [ensure_xxmi_libs, ensurePackage, h, hs]
    · have hstate : (ensure_xxmi_libs fs r).2.1
          = runOps fs (staleOps url tag) := by
        simp [ensure_xxmi_libs, ensurePackage, h, hs]
      have hstamp : (runOps fs (staleOps url tag)).stamp = some tag := by
        simp [staleOps, runOps, applyOp]
      rw [hstate]
      simp [ensure_xxmi_libs, ensurePackage, h, hstamp]

/-- A release whose single asset matches the `XXMI-PACKAGE` pattern, used
by the sync witnesses. -/
def xxmiRelease : Release :=
  { tag_name := some "v1",
    assets := some [{ name := some "XXMI-PACKAGE-v1.zip",
                      browser_download_url := some "https://dl/x.zip" }] }

/-- C6, witness: with the stamp already at `v1`, the sync returns
unchanged state and an empty operation list. -/
theorem ensure_current_is_noop_witness :
    ensure_xxmi_libs
        { stamp := some "v1", payload := some "p", cacheZip := none }
        xxmiRelease
      = (.ok "v1",
         { stamp := some "v1", payload := some "p", cacheZip := none },
         []) :=
  (ensure_current_is_noop
    { stamp := some "v1", payload := some "p", cacheZip := none }
    xxmiRelease "v1" "https://dl/x.zip" rfl).1 rfl

/-- C1: in the stale branch, the version stamp is written strictly after
extraction (`extractZip` sits at position 3 of the operation sequence,
`saveVersion` at position 4); every intermediate state between removing
the old install directory and writing the stamp (prefixes of length 3 or
4: remove-old done, stamp not yet) carries no stamp file; a subsequent
run from any such state reads no stamp and re-runs the full
download–extract–stamp cycle; and whenever extraction raises an error the
new stamp is never written. -/
theorem stamp_written_only_after_extract (fs : FsState) (url tag : String)
    (k : ℕ) (h3 : 3 ≤ k) (h4 : k ≤ 4) :
    Op.removeOldIfExists ∈ (staleOps url tag).take k ∧
    Op.saveVersion tag ∉ (staleOps url tag).take k ∧
    (staleOps url tag)[3]? = some (.extractZip url) ∧
    (staleOps url tag)[4]? = some (.saveVersion tag) ∧
    (runOps fs ((staleOps url tag).take k)).stamp = none ∧
    (∀ (r : Release) (tag2 url2 : String),
      fetch_github_release r "XXMI-PACKAGE" = .ok (tag2, url2) →
      ensure_xxmi_libs (runOps fs ((staleOps url tag).take k)) r
        = (.ok tag2,
           runOps (runOps fs ((staleOps url tag).take k))
             (staleOps url2 tag2),
           staleOps url2 tag2)) ∧
    (∀ (fail : Op → Bool) (fs0 : FsState), fs0.stamp ≠ some tag →
      fail (.extractZip url) = true →
      (runOpsExc fail fs0 (staleOps url tag)).1.stamp ≠ some tag) := by
  have hnostamp : (runOps fs ((staleOps url tag).take k)).stamp = none := by
    have hk : k = 3 ∨ k = 4 := by omega
    rcases hk with rfl | rfl <;> simp [staleOps, runOps, applyOp]
  have hk : k = 3 ∨ k = 4 := by omega
  refine ⟨?_, ?_, rfl, rfl, hnostamp, ?_, ?_⟩
  · rcases hk with rfl | rfl <;> simp [staleOps]
  · rcases hk with rfl | rfl <;> simp [staleOps]
  · intro r tag2 url2 hf
    have hne : (runOps fs ((staleOps url tag).take k)).stamp ≠ some tag2 := by
      rw [hnostamp]
      simp
    simp [ensure_xxmi_libs, ensurePackage, hf, hne]
  · intro fail fs0 hne hfail
    by_cases h1 : fail .createCacheDir
    · simpa [runOpsExc, staleOps, h1] using hne
    · by_cases h2 : fail (.downloadTo url)
      · simpa [runOpsExc, staleOps, applyOp, h1, h2] using hne
      · by_cases hr : fail .removeOldIfExists
        · simpa [runOpsExc, staleOps, applyOp, h1, h2, hr] using hne
        · simp [runOpsExc, staleOps, applyOp, h1, h2, hr, hfail]

/-- A stamped, installed state used by the C1 witness. -/
def stampedState : FsState :=
  { stamp := some "v1", payload := some "p", cacheZip := none }

/-- C1, witness: the state after remove-old (prefix of length 3) has no
stamp, position facts hold, and a run from that state re-runs the full
cycle for any successfully fetched release. -/
theorem stamp_written_only_after_extract_witness :
    Op.removeOldIfExists ∈ (staleOps "u" "v2").take 3 ∧
    Op.saveVersion "v2" ∉ (staleOps "u" "v2").take 3 ∧
    (staleOps "u" "v2")[3]? = some (.extractZip "u") ∧
    (staleOps "u" "v2")[4]? = some (.saveVersion "v2") ∧
    (runOps stampedState ((staleOps "u" "v2").take 3)).stamp = none ∧
    (∀ (r : Release) (tag2 url2 : String),
      fetch_github_release r "XXMI-PACKAGE" = .ok (tag2, url2) →
      ensure_xxmi_libs
          (runOps stampedState ((staleOps "u" "v2").take 3)) r
        = (.ok tag2,
           runOps (runOps stampedState ((staleOps "u" "v2").take 3))
             (staleOps url2 tag2),
           staleOps url2 tag2)) ∧
    (∀ (fail : Op → Bool) (fs0 : FsState), fs0.stamp ≠ some "v2" →
      fail (.extractZip "u") = true →
      (runOpsExc fail fs0 (staleOps "u" "v2")).1.stamp ≠ some "v2") :=
  stamp_written_only_after_extract stampedState
    "u" "v2" 3 (by decide) (by decide)

end AnimeLauncherSdk
